import Mathlib

set_option maxRecDepth 10000

/-!
Shallow embedding of the repository sampling and prioritization pipeline of
the Repository Refactoring Analyzer (source files `github_refactor_analyzer.py`
and `app.py`), together with theorems settling the specification claims.

Python strings are modelled as `List Char` (`Str`); every remote interaction is
modelled by an explicit environment (a function from request data to a response
value, or a tree of directory-listing responses), so that each source function
becomes a pure Lean function of the environment.
-/

/-- Python strings, modelled as lists of characters. -/
abbrev Str := List Char

/-- `str.lower()` (ASCII case folding, which is all the source's patterns use). -/
def strLower (s : Str) : Str := s.map Char.toLower

/-- Python `content.split('\n')`: split at every newline; `""` yields `[""]`. -/
def splitNl : Str → List Str
  | [] => [[]]
  | c :: rest =>
    let r := splitNl rest
    if c = '\n' then [] :: r
    else
      match r with
      | [] => [[c]]
      | h :: t => (c :: h) :: t

/-- Auxiliary scanner for `countSub`, fuelled by the remaining length of the
scanned string (each step consumes at least one character, so fuel
`s.length` is always sufficient for a nonempty pattern). -/
def countSubAux (pat : Str) : Str → Nat → Nat
  | _, 0 => 0
  | s, fuel + 1 =>
    match s with
    | [] => 0
    | c :: rest =>
      if pat.isPrefixOf (c :: rest) then
        1 + countSubAux pat ((c :: rest).drop pat.length) fuel
      else
        countSubAux pat rest fuel

/-- Python `s.count(pat)`: number of non-overlapping occurrences of `pat` in
`s`, scanning left to right (for the empty pattern Python returns
`len(s) + 1`). -/
def countSub (pat s : Str) : Nat :=
  if pat.isEmpty then s.length + 1 else countSubAux pat s s.length

/-- Python `pat in s` for strings: `pat` occurs as a contiguous substring of
`s` (the empty pattern is contained in every string). -/
def containsSub (pat : Str) : Str → Bool
  | [] => pat.isEmpty
  | c :: rest => pat.isPrefixOf (c :: rest) || containsSub pat rest

/-- Index of the last `'.'` in a string, if any. -/
def lastDotIdx : Str → Option Nat
  | [] => none
  | c :: rest =>
    match lastDotIdx rest with
    | some j => some (j + 1)
    | none => if c = '.' then some 0 else none

/-- `os.path.splitext(name)[1]`: the extension starting at the last dot,
empty when there is no dot or when every character before the last dot is
itself a dot (e.g. `".gitignore"` has no extension).  The names this is
applied to are GitHub `name` fields, which contain no `'/'`. -/
def splitext_ext (name : Str) : Str :=
  match lastDotIdx name with
  | none => []
  | some j => if (name.take j).any (fun c => c ≠ '.') then name.drop j else []

/-- `SKIP_REFACTOR_PATTERNS` from the source: substrings whose presence in a
lower-cased path always causes the file to be skipped. -/
def SKIP_REFACTOR_PATTERNS : List Str :=
  [".git".toList, ".github".toList, ".vscode".toList, ".idea".toList,
   "node_modules".toList, "__pycache__".toList, "dist".toList, "build".toList,
   "target".toList, "coverage".toList, ".coverage".toList,
   ".pytest_cache".toList, ".tox".toList, "venv".toList, "env".toList,
   ".env".toList, "logs".toList, "tmp".toList, "temp".toList,
   ".DS_Store".toList, "vendor".toList, "public/assets".toList,
   "static/assets".toList, "assets/images".toList]

/-- `TEST_PATTERNS` from the source: test-path markers, skipped unless
`include_tests` is set. -/
def TEST_PATTERNS : List Str :=
  ["test".toList, "tests".toList, "__tests__".toList, "spec".toList,
   "specs".toList, ".test.".toList, ".spec.".toList, "_test.".toList,
   "_spec.".toList, "test_".toList, "spec_".toList]

/-- The binary/media suffix tuple passed to `path_lower.endswith(...)`. -/
def BINARY_SUFFIXES : List Str :=
  [".png".toList, ".jpg".toList, ".jpeg".toList, ".gif".toList,
   ".svg".toList, ".ico".toList, ".pdf".toList, ".zip".toList,
   ".tar".toList, ".gz".toList, ".exe".toList, ".dmg".toList,
   ".app".toList, ".deb".toList, ".rpm".toList, ".msi".toList,
   ".woff".toList, ".woff2".toList, ".ttf".toList, ".otf".toList,
   ".mp3".toList, ".mp4".toList, ".avi".toList, ".mov".toList]

/-- `REFACTOR_EXTENSIONS` from the source: extensions of code files. -/
def REFACTOR_EXTENSIONS : List Str :=
  [".py".toList, ".js".toList, ".ts".toList, ".jsx".toList, ".tsx".toList,
   ".mjs".toList, ".cjs".toList, ".java".toList, ".cpp".toList, ".c".toList,
   ".h".toList, ".cs".toList, ".php".toList, ".rb".toList, ".go".toList,
   ".rs".toList, ".swift".toList, ".kt".toList, ".scala".toList,
   ".html".toList, ".css".toList, ".scss".toList, ".sass".toList,
   ".less".toList, ".styl".toList, ".vue".toList, ".svelte".toList,
   ".json".toList, ".xml".toList, ".yaml".toList, ".yml".toList,
   ".toml".toList, ".cfg".toList, ".sql".toList]

/-- `PRIORITY_REFACTOR_FILES` from the source: build/manifest file names. -/
def PRIORITY_REFACTOR_FILES : List Str :=
  ["package.json".toList, "requirements.txt".toList, "cargo.toml".toList,
   "pom.xml".toList, "build.gradle".toList, "gemfile".toList,
   "composer.json".toList, "setup.py".toList, "webpack.config.js".toList,
   "vite.config.js".toList, "rollup.config.js".toList, "tsconfig.json".toList,
   "babel.config.js".toList, ".eslintrc.js".toList, ".eslintrc.json".toList,
   "dockerfile".toList, "makefile".toList, "gruntfile.js".toList,
   "gulpfile.js".toList]

/-- The structured-data extension set used by the `is_config` check. -/
def CONFIG_EXTS : List Str :=
  [".json".toList, ".yaml".toList, ".yml".toList, ".toml".toList]

/-- `should_skip_file_for_refactoring(path, include_tests)` from the source:
true when the lower-cased path contains a skip pattern, contains a test
pattern while `include_tests` is false, or ends with a binary/media suffix. -/
def should_skip_file_for_refactoring (path : Str) (include_tests : Bool) : Bool :=
  let path_lower := strLower path
  if SKIP_REFACTOR_PATTERNS.any (fun p => containsSub p path_lower) then
    true
  else if !include_tests && TEST_PATTERNS.any (fun p => containsSub p path_lower) then
    true
  else if BINARY_SUFFIXES.any (fun p => p.isSuffixOf path_lower) then
    true
  else
    false

/-- The per-language keyword table `complexity_patterns` from
`get_file_complexity_score`. -/
def complexity_patterns (ext : Str) : Option (List Str) :=
  if ext = "js".toList then
    some ["function".toList, "class".toList, "if".toList, "for".toList,
          "while".toList, "switch".toList, "try".toList, "catch".toList]
  else if ext = "ts".toList then
    some ["function".toList, "class".toList, "interface".toList, "if".toList,
          "for".toList, "while".toList, "switch".toList, "try".toList,
          "catch".toList]
  else if ext = "py".toList then
    some ["def ".toList, "class ".toList, "if ".toList, "for ".toList,
          "while ".toList, "try:".toList, "except:".toList, "lambda".toList]
  else if ext = "java".toList then
    some ["public class".toList, "private".toList, "protected".toList,
          "if".toList, "for".toList, "while".toList, "switch".toList,
          "try".toList, "catch".toList]
  else if ext = "cpp".toList then
    some ["class".toList, "struct".toList, "if".toList, "for".toList,
          "while".toList, "switch".toList, "try".toList, "catch".toList]
  else if ext = "cs".toList then
    some ["class".toList, "struct".toList, "interface".toList, "if".toList,
          "for".toList, "while".toList, "switch".toList, "try".toList,
          "catch".toList]
  else
    none

/-- The fallback keyword list used for unrecognized extensions. -/
def DEFAULT_COMPLEXITY_PATTERNS : List Str :=
  ["function".toList, "class".toList, "if".toList, "for".toList,
   "while".toList]

/-- The keyword list chosen for a `file_type`: look up
`file_type.lstrip('.')` in the table, falling back to the generic list. -/
def patterns_for (file_type : Str) : List Str :=
  (complexity_patterns (file_type.dropWhile (fun c => c = '.'))).getD
    DEFAULT_COMPLEXITY_PATTERNS

/-- The keyword contribution of `get_file_complexity_score`: two points per
case-insensitive occurrence of each keyword. -/
def keyword_score (content : Str) (file_type : Str) : Nat :=
  ((patterns_for file_type).map
    (fun p => countSub (strLower p) (strLower content) * 2)).sum

/-- `get_file_complexity_score(content, file_type)` from the source:
`min(line_count // 10, 50)` plus two points per keyword occurrence, the
total capped at 100. -/
def get_file_complexity_score (content : Str) (file_type : Str) : Nat :=
  min (min ((splitNl content).length / 10) 50 + keyword_score content file_type) 100

/-! ## Repository Locator

The source extracts owner and repository name with
`re.search(r'github\.com/([^/]+)/([^/]+?)(?:\.git)?/?$', github_url)`.
The embedding reproduces `re.search`: the pattern is tried at each start
position from the left; after the literal `github.com/` the owner is a
maximal nonempty run of non-`'/'` characters followed by `'/'`; the
lazily-matched name group is the shortest nonempty non-`'/'` run whose
remainder is `(\.git)?/?` followed by the end of the string (where, as in
Python, `$` also matches just before a single trailing newline). -/

/-- The remainders accepted after the name group: `(?:\.git)?/?$`, with `$`
also matching before one terminal newline. -/
def URL_SUFFIX_FORMS : List Str :=
  ["".toList, "/".toList, ".git".toList, ".git/".toList, "\n".toList,
   "/\n".toList, ".git\n".toList, ".git/\n".toList]

/-- Lazy matching of the name group `([^/]+?)`: accept the shortest nonempty
accumulated run (kept reversed in `acc`) whose remainder is an accepted
suffix form; a `'/'` or the end of the string aborts. -/
def matchNameAux : Str → Str → Option Str
  | acc, [] =>
    if acc.isEmpty = false && URL_SUFFIX_FORMS.contains ([] : Str) then
      some acc.reverse
    else none
  | acc, c :: rest =>
    if acc.isEmpty = false && URL_SUFFIX_FORMS.contains (c :: rest) then
      some acc.reverse
    else if c = '/' then none
    else matchNameAux (c :: acc) rest

/-- The literal host part of the pattern. -/
def GITHUB_HOST : Str := "github.com/".toList

/-- Try the whole pattern anchored at the start of `s`. -/
def matchAt (s : Str) : Option (Str × Str) :=
  if GITHUB_HOST.isPrefixOf s then
    let t := s.drop GITHUB_HOST.length
    let owner := t.takeWhile (fun c => c ≠ '/')
    if owner.isEmpty then none
    else
      match t.drop owner.length with
      | [] => none
      | c :: rest =>
        if c = '/' then
          match matchNameAux [] rest with
          | none => none
          | some name => some (owner, name)
        else none
  else none

/-- `re.search` over the URL: try the pattern at every start position. -/
def reSearchGithub : Str → Option (Str × Str)
  | [] => none
  | s₁ :: rest =>
    match matchAt (s₁ :: rest) with
    | some x => some x
    | none => reSearchGithub rest

/-- Owner/name extraction shared by `validate_repository` and
`fetch_repository_for_refactoring` (both use the same pattern). -/
def parse_github_url (url : Str) : Option (Str × Str) :=
  reSearchGithub url

/-- The JSON body of a successful `GET /repos/{owner}/{name}`: the fields
`validate_repository` reads with `.get`, each possibly absent. -/
structure RepoJson where
  full_name : Option Str
  description : Option Str
  language : Option Str
  stargazers_count : Option Nat
  forks_count : Option Nat
  default_branch : Option Str
deriving DecidableEq

/-- Outcome of the repository-metadata lookup: a response with a status code
and body, or a raised transport fault (`requests` raising). -/
inductive MetaResult where
  | resp (status : Nat) (data : RepoJson)
  | exn
deriving DecidableEq

/-- The dictionary `validate_repository` returns on success. -/
structure RepoInfo where
  owner : Str
  name : Str
  full_name : Str
  description : Str
  language : Str
  stars : Nat
  forks : Nat
  url : Str
  default_branch : Str
deriving DecidableEq

/-- `validate_repository(github_url)` from the source, with the remote
lookup abstracted as `meta : owner → name → MetaResult`.  A failed pattern
match returns `none` before any lookup; a raised fault is caught by the
surrounding `try` and becomes `none`; a non-200 status becomes `none`;
otherwise the info dictionary is built with `.get` defaults. -/
def validate_repository (meta : Str → Str → MetaResult) (github_url : Str) :
    Option RepoInfo :=
  match parse_github_url github_url with
  | none => none
  | some (owner, repo_name) =>
    match meta owner repo_name with
    | MetaResult.exn => none
    | MetaResult.resp status repo_data =>
      if status ≠ 200 then none
      else
        some
          { owner := owner
            name := repo_name
            full_name := repo_data.full_name.getD (owner ++ "/".toList ++ repo_name)
            description := repo_data.description.getD []
            language := repo_data.language.getD ("Unknown".toList)
            stars := repo_data.stargazers_count.getD 0
            forks := repo_data.forks_count.getD 0
            url := github_url
            default_branch := repo_data.default_branch.getD ("main".toList) }

/-! ## Content Walker

`fetch_repository_contents_recursive` issues one contents-listing call per
directory.  The remote tree is modelled as an inductive forest in which each
directory node carries either its listing (`rdirOk`) or the fact that the
listing call failed with a non-success status or a raised fault
(`rdirFailed`, which the source turns into an empty result plus a logged
warning).  The function returns the collected file entries together with the
list of warned-about paths. -/

/-- A file entry as returned by the contents-listing endpoint (the fields the
source reads). -/
structure RemoteItem where
  path : Str
  name : Str
  size : Nat
  download_url : Str
deriving DecidableEq

/-- The remote repository tree seen through the contents-listing endpoint. -/
inductive RTree where
  | rfile (name path : Str) (size : Nat) (download_url : Str) : RTree
  | rdirOk (name path : Str) (children : List RTree) : RTree
  | rdirFailed (name path : Str) : RTree

/-- The body of `fetch_repository_contents_recursive` over one listing: files
are collected in order; a directory is recursed into only when
`should_skip_file_for_refactoring(item['path'])` is false — note the call
passes only the path, so `include_tests` is always its default `False`
here; a failed listing contributes no entries and one warning. -/
def fetchForest : List RTree → List RemoteItem × List Str
  | [] => ([], [])
  | RTree.rfile n p sz d :: ts =>
    let r := fetchForest ts
    (⟨p, n, sz, d⟩ :: r.1, r.2)
  | RTree.rdirOk _ p cs :: ts =>
    let r := fetchForest ts
    if should_skip_file_for_refactoring p false then r
    else
      let sub := fetchForest cs
      (sub.1 ++ r.1, sub.2 ++ r.2)
  | RTree.rdirFailed _ p :: ts =>
    let r := fetchForest ts
    if should_skip_file_for_refactoring p false then r
    else (r.1, p :: r.2)

/-- The top-level call `fetch_repository_contents_recursive(owner, name)`
with path `""`: `none` models the root listing itself failing (the source
logs a warning for path `""` and returns `[]`). -/
def fetchContentsRecursive (root : Option (List RTree)) :
    List RemoteItem × List Str :=
  match root with
  | none => ([], [[]])
  | some ts => fetchForest ts

/-! ## File Classifier -/

/-- The `options` dictionary passed by the app (`app.py` always supplies all
four keys; the source's `.get` defaults are 60, false, true, true). -/
structure ScopeOptions where
  max_files : Nat
  include_tests : Bool
  focus_large_files : Bool
  include_config : Bool
deriving DecidableEq

/-- The `structure['statistics']` dictionary.  The complexity-distribution
histogram is keyed here by the numeric start of each width-20 bucket; the
source's string label `f"{s}-{s+19}"` is determined by that start. -/
structure Statistics where
  total_files : Nat
  code_files : Nat
  analyzed_files : Nat
  skipped_files : Nat
  languages : List (Str × Nat)
  complexity_distribution : List (Nat × Nat)
deriving DecidableEq

/-- The freshly initialized statistics dictionary. -/
def initStatistics : Statistics := ⟨0, 0, 0, 0, [], []⟩

/-- `d[k] = d.get(k, 0) + 1` on an insertion-ordered dictionary. -/
def bumpAssoc {κ : Type} [DecidableEq κ] : List (κ × Nat) → κ → List (κ × Nat)
  | [], k => [(k, 1)]
  | (k₂, v) :: rest, k =>
    if k₂ = k then (k₂, v + 1) :: rest else (k₂, v) :: bumpAssoc rest k

/-- `d[k] = v` on an insertion-ordered dictionary (overwrite keeps the
original position, as in Python). -/
def setAssoc {κ α : Type} [DecidableEq κ] : List (κ × α) → κ → α → List (κ × α)
  | [], k, v => [(k, v)]
  | (k₂, v₂) :: rest, k, v =>
    if k₂ = k then (k₂, v) :: rest else (k₂, v₂) :: setAssoc rest k v

/-- Dictionary lookup on an insertion-ordered association list. -/
def lookupAssoc {κ α : Type} [DecidableEq κ] : List (κ × α) → κ → Option α
  | [], _ => none
  | (k₂, v) :: rest, k => if k₂ = k then some v else lookupAssoc rest k

/-- The per-file `file_data` dictionary built by the classification loop
(`ftype` models the key `'type'`, the lower-cased extension). -/
structure FileData where
  path : Str
  name : Str
  size : Nat
  ftype : Str
  download_url : Str
  is_priority : Bool
  complexity_score : Nat
deriving DecidableEq

/-- One iteration of the classification loop in
`fetch_repository_for_refactoring` (lines 206-242): skip by pattern, derive
extension and flags, drop files that are neither code nor config, and
otherwise record the file and update the statistics.  The accumulator pair
is (statistics, candidate list); the source appends each kept `file_data`
to both `structure['files']` and `files_to_analyze`, which therefore hold
the same sequence at the end of the loop. -/
def processEntry (opts : ScopeOptions) (acc : Statistics × List FileData)
    (it : RemoteItem) : Statistics × List FileData :=
  let stats := acc.1
  let fta := acc.2
  if should_skip_file_for_refactoring it.path opts.include_tests then
    ({ stats with skipped_files := stats.skipped_files + 1 }, fta)
  else
    let ext := strLower (splitext_ext it.name)
    let is_priority :=
      (PRIORITY_REFACTOR_FILES.map strLower).contains (strLower it.name)
    let is_code_file := REFACTOR_EXTENSIONS.contains ext
    let is_config :=
      opts.include_config && (is_priority || CONFIG_EXTS.contains ext)
    if !(is_code_file || is_config) then
      ({ stats with skipped_files := stats.skipped_files + 1 }, fta)
    else
      let fd : FileData := ⟨it.path, it.name, it.size, ext, it.download_url,
        is_priority, 0⟩
      let stats₁ := { stats with total_files := stats.total_files + 1 }
      let stats₂ :=
        if is_code_file then
          { stats₁ with
            code_files := stats₁.code_files + 1
            languages := bumpAssoc stats₁.languages ext }
        else stats₁
      (stats₂, fta ++ [fd])

/-! ## Selection Ranker

Lines 244-252 of the source: a stable ascending sort by the key
`(not is_priority, -size)` when `focus_large_files` is set and
`(not is_priority, size)` otherwise, followed by truncation to
`max_files`.  Python's stable ascending `list.sort` is modelled by
`List.insertionSort`, which inserts each element before the first
not-strictly-smaller one and hence preserves the original order of
key-equal elements. -/

/-- The sort key of a candidate; the two `sort` calls differ only in the
sign of the size component. -/
def sortKey (focus_large_files : Bool) (f : FileData) : Bool × Int :=
  (!f.is_priority,
   if focus_large_files then -(f.size : Int) else (f.size : Int))

/-- Lexicographic `≤` on Python's `(bool, int)` keys (`False < True`). -/
def keyLe (a b : Bool × Int) : Bool :=
  (a.1 == b.1 && decide (a.2 ≤ b.2)) || (!a.1 && b.1)

/-- The stable sort performed on `files_to_analyze`. -/
def rank_files (focus_large_files : Bool) (files : List FileData) :
    List FileData :=
  List.insertionSort
    (fun a b => keyLe (sortKey focus_large_files a)
      (sortKey focus_large_files b) = true) files

/-- Sort and truncate: `files_to_analyze.sort(...)` then `[:max_files]`. -/
def rank_and_limit (candidates : List FileData) (max_files : Nat)
    (focus_large_files : Bool) : List FileData :=
  (rank_files focus_large_files candidates).take max_files

/-! ## Content Fetcher -/

/-- Outcome of one `github_session.get(download_url)`: a response carrying a
status code and text body, or a raised transport fault. -/
inductive ContentResult where
  | resp (status : Nat) (body : Str)
  | exn
deriving DecidableEq

/-- One entry of `structure['analyzed_files']`. -/
structure AnalyzedFile where
  content : Str
  size : Nat
  ftype : Str
  complexity_score : Nat
  is_priority : Bool
deriving DecidableEq

/-- The state threaded through the content-fetch loop: the scored mapping
under construction and the running statistics. -/
structure FetchState where
  analyzed : List (Str × AnalyzedFile)
  stats : Statistics
deriving DecidableEq

/-- One iteration of the content-fetch loop (lines 255-280), with the remote
call abstracted as `net : download_url → ContentResult`.  A raised fault is
caught by the per-file `except`, which logs and increments
`skipped_files`; a 200 response is scored and recorded; any other status
falls through the `if` with no effect at all on the state. -/
def fetchOne (net : Str → ContentResult) (st : FetchState) (fd : FileData) :
    FetchState :=
  match net fd.download_url with
  | ContentResult.exn =>
    { st with stats :=
        { st.stats with skipped_files := st.stats.skipped_files + 1 } }
  | ContentResult.resp status body =>
    if status = 200 then
      let complexity_score := get_file_complexity_score body fd.ftype
      { analyzed := setAssoc st.analyzed fd.path
          ⟨body, fd.size, fd.ftype, complexity_score, fd.is_priority⟩
        stats :=
          { st.stats with
            analyzed_files := st.stats.analyzed_files + 1
            complexity_distribution :=
              bumpAssoc st.stats.complexity_distribution
                (complexity_score / 20 * 20) } }
    else st

/-- The whole content-fetch loop over the ranked, truncated candidates. -/
def fetchFiles (net : Str → ContentResult) (files : List FileData)
    (st : FetchState) : FetchState :=
  files.foldl (fetchOne net) st

/-! ## Whole pipeline -/

/-- The remote world a pipeline run interacts with: the metadata lookup used
by `validate_repository`, the contents tree walked by
`fetch_repository_contents_recursive` (`root = none` models a failing root
listing), and the per-URL content fetch. -/
structure Env where
  meta : Str → Str → MetaResult
  root : Option (List RTree)
  content : Str → ContentResult

/-- The payload dictionary returned by `fetch_repository_for_refactoring`.
`warnings` collects the paths warned about during traversal (the source
only logs them; they are carried here so that logging behaviour is
statable). -/
structure RepoStructure where
  files : List FileData
  analyzed_files : List (Str × AnalyzedFile)
  statistics : Statistics
  warnings : List Str
deriving DecidableEq

/-- The content-fetch loop assigns `file_data['complexity_score']` through
the dict objects shared between `files_to_analyze` and
`structure['files']`; with the per-path scored mapping in hand this is the
per-path update below (paths are unique in any actual repository tree). -/
def applyScores (analyzed : List (Str × AnalyzedFile))
    (files : List FileData) : List FileData :=
  files.map (fun fd =>
    match lookupAssoc analyzed fd.path with
    | some a => { fd with complexity_score := a.complexity_score }
    | none => fd)

/-- `fetch_repository_for_refactoring(github_url, options)` from the source:
parse the URL (raising `ValueError`, modelled as `Except.error`, when the
pattern fails), walk the tree, classify and count, rank and truncate,
fetch contents.  Every per-file and per-directory failure is handled
inside the loops, so a successfully parsed URL always produces `.ok`. -/
def fetch_repository_for_refactoring (env : Env) (github_url : Str)
    (options : ScopeOptions) : Except Str RepoStructure :=
  match parse_github_url github_url with
  | none => Except.error ("Invalid GitHub URL".toList)
  | some _ =>
    let walked := fetchContentsRecursive env.root
    let classified := walked.1.foldl (processEntry options) (initStatistics, [])
    let files_to_analyze :=
      rank_and_limit classified.2 options.max_files options.focus_large_files
    let final := fetchFiles env.content files_to_analyze ⟨[], classified.1⟩
    Except.ok
      { files := applyScores final.analyzed classified.2
        analyzed_files := final.analyzed
        statistics := final.stats
        warnings := walked.2 }

/-! ## App-level run (`app.py`, analyze-button handler)

After `validate_repository` returns a falsy value the app shows an error
and returns; otherwise it calls `fetch_repository_for_refactoring` inside a
`try` whose `except` shows the error and stops.  Everything after the
payload is produced (suggestion generation, rendering) consumes the payload
and is outside the modelled core. -/

/-- Result of one analyze-button run: a hard stop with an error message, or
a completed run holding the fetched payload. -/
inductive RunResult where
  | halted (msg : Str)
  | completed (payload : RepoStructure)

/-- The pipeline portion of the analyze-button handler in `app.py`. -/
def run_analysis (env : Env) (github_url : Str) (options : ScopeOptions) :
    RunResult :=
  match validate_repository env.meta github_url with
  | none =>
    RunResult.halted
      ("Invalid repository URL or repository not accessible".toList)
  | some _ =>
    match fetch_repository_for_refactoring env github_url options with
    | Except.error e => RunResult.halted e
    | Except.ok payload => RunResult.completed payload

/-- The reference-level error condition of the error-handling design: the
URL fails the owner/repo pattern, or the single metadata lookup does not
come back with status 200. -/
def reference_error (env : Env) (github_url : Str) : Prop :=
  match parse_github_url github_url with
  | none => True
  | some (owner, repo_name) =>
    ∀ j, env.meta owner repo_name ≠ MetaResult.resp 200 j

/-- Thirty lines of Python: three `def`s, one `class`, 22 filler lines. -/
def pyScenarioContent : Str :=
  ("def a():\n    return 1\ndef b():\n    return 2\ndef c():\n    return 3\n"
    ++ "class x:\n    pass"
    ++ "\npass\npass\npass\npass\npass\npass\npass\npass\npass\npass\npass"
    ++ "\npass\npass\npass\npass\npass\npass\npass\npass\npass\npass\npass").toList

/-- The three candidates of the spec's ranking scenario. -/
def scenarioPkg : FileData :=
  ⟨"pkg.json".toList, "pkg.json".toList, 500, ".json".toList,
   "url-pkg".toList, true, 0⟩

/-- Scenario candidate `a.py`, non-priority, size 9000. -/
def scenarioA : FileData :=
  ⟨"a.py".toList, "a.py".toList, 9000, ".py".toList, "url-a".toList, false, 0⟩

/-- Scenario candidate `b.py`, non-priority, size 100. -/
def scenarioB : FileData :=
  ⟨"b.py".toList, "b.py".toList, 100, ".py".toList, "url-b".toList, false, 0⟩

/-- The scenario candidate list in traversal order. -/
def scenarioCandidates : List FileData := [scenarioPkg, scenarioA, scenarioB]

/-- Sibling files surrounding the pruned test directory in the C8 witness. -/
def c8Pre : List RTree :=
  [RTree.rfile ("a.py".toList) ("a.py".toList) 5 ("url-a".toList)]

/-- Sibling files after the pruned test directory in the C8 witness. -/
def c8Post : List RTree :=
  [RTree.rfile ("b.py".toList) ("b.py".toList) 7 ("url-b".toList)]

/-- The subtree beneath the test directory in the C8 witness. -/
def c8Children : List RTree :=
  [RTree.rfile ("x.py".toList) ("tests/x.py".toList) 3 ("url-x".toList)]

/-! ## Theorems -/

/-- C7: for every path whose lower-cased form contains any of the fixed
skip-pattern substrings, and for every `include_tests` setting,
`should_skip_file_for_refactoring` returns true, regardless of the file's
extension. -/
theorem skip_pattern_always_skips (path : Str) (include_tests : Bool)
    (h : SKIP_REFACTOR_PATTERNS.any
      (fun p => containsSub p (strLower path)) = true) :
    should_skip_file_for_refactoring path include_tests = true := by
  unfold should_skip_file_for_refactoring
  simp [h]

/-- Witness for C7 at the path `"src/node_modules/app.py"`. -/
theorem skip_pattern_always_skips_witness :
    SKIP_REFACTOR_PATTERNS.any
      (fun p => containsSub p (strLower ("src/node_modules/app.py".toList))) = true ∧
    should_skip_file_for_refactoring ("src/node_modules/app.py".toList) true = true :=
  ⟨by decide, skip_pattern_always_skips _ true (by decide)⟩

/-- C9: for every well-formed repository reference, whenever the single
metadata lookup returns any non-success status (for example 404),
`validate_repository` returns `none` rather than raising a fault, so the
caller must test the optional result. -/
theorem validate_non_success_returns_none (meta : Str → Str → MetaResult)
    (github_url owner repo_name : Str) (status : Nat) (j : RepoJson)
    (hp : parse_github_url github_url = some (owner, repo_name))
    (hm : meta owner repo_name = MetaResult.resp status j)
    (hs : status ≠ 200) :
    validate_repository meta github_url = none := by
  unfold validate_repository
  rw [hp]
  simp [hm, hs]

/-- Witness for C9: a constant 404 responder on a well-formed URL. -/
theorem validate_non_success_returns_none_witness :
    parse_github_url ("https://github.com/octo/demo".toList) =
      some ("octo".toList, "demo".toList) ∧
    validate_repository
      (fun _ _ => MetaResult.resp 404 ⟨none, none, none, none, none, none⟩)
      ("https://github.com/octo/demo".toList) = none :=
  ⟨by decide,
   validate_non_success_returns_none _ _ ("octo".toList) ("demo".toList) 404
     ⟨none, none, none, none, none, none⟩ (by decide) rfl (by decide)⟩

/-- C6: for every URL string that the host/owner/repo pattern rejects,
reference parsing fails: `validate_repository` returns `none` and
`fetch_repository_for_refactoring` raises `ValueError`, and in both cases
the outcome is the same for every remote environment — the failure happens
before any remote call is issued. -/
theorem invalid_reference_no_remote_calls (github_url : Str)
    (h : parse_github_url github_url = none) :
    (∀ meta, validate_repository meta github_url = none) ∧
    (∀ env options, fetch_repository_for_refactoring env github_url options =
      Except.error ("Invalid GitHub URL".toList)) := by
  constructor
  · intro meta
    unfold validate_repository
    rw [h]
  · intro env options
    unfold fetch_repository_for_refactoring
    rw [h]

/-- Witness for C6 at a URL without the `github.com/owner/repo` shape. -/
theorem invalid_reference_no_remote_calls_witness :
    parse_github_url ("https://example.com/octo/demo".toList) = none ∧
    validate_repository (fun _ _ => MetaResult.exn)
      ("https://example.com/octo/demo".toList) = none ∧
    fetch_repository_for_refactoring
      ⟨fun _ _ => MetaResult.exn, some [], fun _ => ContentResult.exn⟩
      ("https://example.com/octo/demo".toList) ⟨60, false, true, true⟩ =
      Except.error ("Invalid GitHub URL".toList) :=
  ⟨by decide,
   (invalid_reference_no_remote_calls _ (by decide)).1 _,
   (invalid_reference_no_remote_calls _ (by decide)).2 _ _⟩

/-- C3: for every content string and every extension the complexity score
lies in [0,100]; and for keyword-free content, doubling the line count
never decreases the score. -/
theorem complexity_score_bounded_and_monotone (content c₁ c₂ file_type : Str)
    (h₁ : ∀ p ∈ patterns_for file_type,
      countSub (strLower p) (strLower c₁) = 0)
    (h₂ : ∀ p ∈ patterns_for file_type,
      countSub (strLower p) (strLower c₂) = 0)
    (hlen : (splitNl c₂).length = 2 * (splitNl c₁).length) :
    0 ≤ get_file_complexity_score content file_type ∧
    get_file_complexity_score content file_type ≤ 100 ∧
    get_file_complexity_score c₁ file_type ≤
      get_file_complexity_score c₂ file_type := by
  refine ⟨Nat.zero_le _, min_le_right _ _, ?_⟩
  have k₁ : keyword_score c₁ file_type = 0 := by
    unfold keyword_score
    apply List.sum_eq_zero
    intro x hx
    rw [List.mem_map] at hx
    obtain ⟨p, hp, rfl⟩ := hx
    rw [h₁ p hp]
    simp
  have k₂ : keyword_score c₂ file_type = 0 := by
    unfold keyword_score
    apply List.sum_eq_zero
    intro x hx
    rw [List.mem_map] at hx
    obtain ⟨p, hp, rfl⟩ := hx
    rw [h₂ p hp]
    simp
  unfold get_file_complexity_score
  rw [k₁, k₂, hlen]
  omega

/-- Witness for C3 on the keyword-free contents `"a"` and `"a\nb"`. -/
theorem complexity_score_bounded_and_monotone_witness :
    (∀ p ∈ patterns_for (".py".toList),
      countSub (strLower p) (strLower ("a".toList)) = 0) ∧
    (∀ p ∈ patterns_for (".py".toList),
      countSub (strLower p) (strLower ("a\nb".toList)) = 0) ∧
    (splitNl ("a\nb".toList)).length = 2 * (splitNl ("a".toList)).length ∧
    (0 ≤ get_file_complexity_score ("x = 1".toList) (".py".toList) ∧
     get_file_complexity_score ("x = 1".toList) (".py".toList) ≤ 100 ∧
     get_file_complexity_score ("a".toList) (".py".toList) ≤
       get_file_complexity_score ("a\nb".toList) (".py".toList)) :=
  ⟨by decide, by decide, by decide,
   complexity_score_bounded_and_monotone _ _ _ _ (by decide) (by decide)
     (by decide)⟩

/-- C4: a 30-line Python content with exactly three occurrences of `"def "`,
one of `"class "` and none of the other py-list keywords scores
`min(30 / 10, 50) + (3 + 1) * 2 = 11`. -/
theorem complexity_score_py_scenario (content : Str)
    (hl : (splitNl content).length = 30)
    (hdef : countSub ("def ".toList) (strLower content) = 3)
    (hcls : countSub ("class ".toList) (strLower content) = 1)
    (hif : countSub ("if ".toList) (strLower content) = 0)
    (hfor : countSub ("for ".toList) (strLower content) = 0)
    (hwhl : countSub ("while ".toList) (strLower content) = 0)
    (htry : countSub ("try:".toList) (strLower content) = 0)
    (hexc : countSub ("except:".toList) (strLower content) = 0)
    (hlam : countSub ("lambda".toList) (strLower content) = 0) :
    get_file_complexity_score content (".py".toList) = 11 := by
  have hpats : patterns_for (".py".toList) =
      ["def ".toList, "class ".toList, "if ".toList, "for ".toList,
       "while ".toList, "try:".toList, "except:".toList, "lambda".toList] := by
    decide
  unfold get_file_complexity_score keyword_score
  rw [hpats, hl]
  simp only [List.map_cons, List.map_nil, List.sum_cons, List.sum_nil]
  rw [show strLower ("def ".toList) = "def ".toList from by decide,
    show strLower ("class ".toList) = "class ".toList from by decide,
    show strLower ("if ".toList) = "if ".toList from by decide,
    show strLower ("for ".toList) = "for ".toList from by decide,
    show strLower ("while ".toList) = "while ".toList from by decide,
    show strLower ("try:".toList) = "try:".toList from by decide,
    show strLower ("except:".toList) = "except:".toList from by decide,
    show strLower ("lambda".toList) = "lambda".toList from by decide,
    hdef, hcls, hif, hfor, hwhl, htry, hexc, hlam]
  decide

/-- Witness for C4 on a concrete 30-line content. -/
theorem complexity_score_py_scenario_witness :
    (splitNl pyScenarioContent).length = 30 ∧
    countSub ("def ".toList) (strLower pyScenarioContent) = 3 ∧
    countSub ("class ".toList) (strLower pyScenarioContent) = 1 ∧
    get_file_complexity_score pyScenarioContent (".py".toList) = 11 :=
  ⟨by decide, by decide, by decide,
   complexity_score_py_scenario pyScenarioContent (by decide) (by decide)
     (by decide) (by decide) (by decide) (by decide) (by decide) (by decide)
     (by decide)⟩

/-- Reflexivity of the key order. -/
theorem keyLe_refl (a : Bool × Int) : keyLe a a = true := by
  rcases a with ⟨x, i⟩
  simp [keyLe]

/-- Totality of the key order. -/
theorem keyLe_total (a b : Bool × Int) : keyLe a b = true ∨ keyLe b a = true := by
  rcases a with ⟨x, i⟩
  rcases b with ⟨y, j⟩
  cases x <;> cases y <;> simp [keyLe] <;> omega

/-- Transitivity of the key order. -/
theorem keyLe_trans (a b c : Bool × Int) (h₁ : keyLe a b = true)
    (h₂ : keyLe b c = true) : keyLe a c = true := by
  rcases a with ⟨x, i⟩
  rcases b with ⟨y, j⟩
  rcases c with ⟨z, k⟩
  cases x <;> cases y <;> cases z <;> simp [keyLe] at h₁ h₂ ⊢ <;> omega

/-- The sorted list produced by the ranking sort is ordered by the key. -/
theorem rank_files_sorted (focus : Bool) (l : List FileData) :
    List.Sorted
      (fun a b => keyLe (sortKey focus a) (sortKey focus b) = true)
      (rank_files focus l) := by
  haveI : IsTotal FileData
      (fun a b => keyLe (sortKey focus a) (sortKey focus b) = true) :=
    ⟨fun a b => keyLe_total _ _⟩
  haveI : IsTrans FileData
      (fun a b => keyLe (sortKey focus a) (sortKey focus b) = true) :=
    ⟨fun a b c => keyLe_trans _ _ _⟩
  exact List.sorted_insertionSort _ l

/-- Inserting an element satisfying `p`, when everything strictly below it
fails `p`, prepends it to the filtered list. -/
theorem filter_orderedInsert_pos {α : Type} (r : α → α → Prop) [DecidableRel r]
    (p : α → Bool) (x : α) (hx : p x = true)
    (hcl : ∀ y, ¬ r x y → p y = false) :
    ∀ l : List α, (List.orderedInsert r x l).filter p = x :: l.filter p := by
  intro l
  induction l with
  | nil => simp [List.orderedInsert, hx]
  | cons y ys ih =>
    by_cases h : r x y
    · simp [List.orderedInsert, h, hx]
    · have hy := hcl y h
      simp [List.orderedInsert, h, hy, ih]

/-- Inserting an element failing `p` leaves the filtered list unchanged. -/
theorem filter_orderedInsert_neg {α : Type} (r : α → α → Prop) [DecidableRel r]
    (p : α → Bool) (x : α) (hx : p x = false) :
    ∀ l : List α, (List.orderedInsert r x l).filter p = l.filter p := by
  intro l
  induction l with
  | nil => simp [List.orderedInsert, hx]
  | cons y ys ih =>
    by_cases h : r x y
    · simp [List.orderedInsert, h, hx]
    · simp [List.orderedInsert, h, List.filter_cons, ih]

/-- Stability of the ranking sort: the subsequence of candidates with any
fixed sort key is untouched, so key ties keep their traversal order. -/
theorem rank_files_stable (focus : Bool) (k : Bool × Int) (l : List FileData) :
    (rank_files focus l).filter (fun f => decide (sortKey focus f = k)) =
      l.filter (fun f => decide (sortKey focus f = k)) := by
  induction l with
  | nil => rfl
  | cons x xs ih =>
    have hsort : rank_files focus (x :: xs) =
        List.orderedInsert
          (fun a b => keyLe (sortKey focus a) (sortKey focus b) = true) x
          (rank_files focus xs) := rfl
    rw [hsort]
    by_cases hx : sortKey focus x = k
    · have hstep := filter_orderedInsert_pos
        (fun a b => keyLe (sortKey focus a) (sortKey focus b) = true)
        (fun f => decide (sortKey focus f = k)) x (by simp [hx])
        (fun y hy => by
          simp only [decide_eq_false_iff_not]
          intro hk
          apply hy
          show keyLe (sortKey focus x) (sortKey focus y) = true
          rw [hx, hk]
          exact keyLe_refl k)
        (rank_files focus xs)
      rw [hstep, ih]
      simp [hx]
    · have hstep := filter_orderedInsert_neg
        (fun a b => keyLe (sortKey focus a) (sortKey focus b) = true)
        (fun f => decide (sortKey focus f = k)) x (by simp [hx])
        (rank_files focus xs)
      rw [hstep, ih]
      simp [hx]

/-- Key comparison forces priority files before non-priority files. -/
theorem rank_rel_gives_priority {focus : Bool} {a b : FileData}
    (h : keyLe (sortKey focus a) (sortKey focus b) = true)
    (hb : b.is_priority = true) : a.is_priority = true := by
  cases ha : a.is_priority
  · simp [keyLe, sortKey, ha, hb] at h
  · rfl

/-- Key comparison within a priority tier forces the configured size
direction. -/
theorem rank_rel_gives_size {focus : Bool} {a b : FileData}
    (h : keyLe (sortKey focus a) (sortKey focus b) = true)
    (hpr : a.is_priority = b.is_priority) :
    if focus then b.size ≤ a.size else a.size ≤ b.size := by
  cases focus <;> cases hb : b.is_priority <;>
    (have ha := hpr.trans hb
     simp [keyLe, sortKey, ha, hb] at h
     simp
     omega)

/-- C2: `rank_and_limit` returns exactly `min(len(candidates), N)` entries,
always a prefix of the full stable order in which priority files precede
non-priority files and each tier is ordered by size in the configured
direction with ties keeping traversal order; and on the spec's scenario
with `focus_large_files` and `max_files = 2` it returns
`[pkg.json, a.py]`. -/
theorem rank_and_limit_spec (l : List FileData) (N : Nat) (focus : Bool) :
    (rank_and_limit l N focus).length = min l.length N ∧
    (∃ t, rank_files focus l = rank_and_limit l N focus ++ t) ∧
    (rank_files focus l).Perm l ∧
    (rank_files focus l).Pairwise
      (fun a b => b.is_priority = true → a.is_priority = true) ∧
    (rank_files focus l).Pairwise
      (fun a b => a.is_priority = b.is_priority →
        (if focus then b.size ≤ a.size else a.size ≤ b.size)) ∧
    (∀ k, (rank_files focus l).filter (fun f => decide (sortKey focus f = k)) =
      l.filter (fun f => decide (sortKey focus f = k))) ∧
    rank_and_limit scenarioCandidates 2 true = [scenarioPkg, scenarioA] := by
  refine ⟨?_, ⟨(rank_files focus l).drop N, (List.take_append_drop N _).symm⟩,
    List.perm_insertionSort _ l, ?_, ?_, fun k => rank_files_stable focus k l, by decide⟩
  · unfold rank_and_limit
    rw [List.length_take]
    unfold rank_files
    rw [List.length_insertionSort, Nat.min_comm]
  · exact (rank_files_sorted focus l).imp
      (fun h hb => rank_rel_gives_priority h hb)
  · exact (rank_files_sorted focus l).imp
      (fun h hpr => rank_rel_gives_size h hpr)

/-- Walking a concatenation of sibling listings concatenates the collected
files and warnings. -/
theorem fetchForest_append (l₁ l₂ : List RTree) :
    fetchForest (l₁ ++ l₂) =
      ((fetchForest l₁).1 ++ (fetchForest l₂).1,
       (fetchForest l₁).2 ++ (fetchForest l₂).2) := by
  induction l₁ with
  | nil => simp [fetchForest]
  | cons t ts ih =>
    cases t with
    | rfile n p sz d => simp [fetchForest, ih]
    | rdirOk n p cs =>
      by_cases h : should_skip_file_for_refactoring p false <;>
        simp [fetchForest, h, ih]
    | rdirFailed n p =>
      by_cases h : should_skip_file_for_refactoring p false <;>
        simp [fetchForest, h, ih]

/-- A path carrying a test pattern is skipped under the default
`include_tests = False` that the traversal always passes. -/
theorem test_pattern_skips_by_default (p : Str)
    (h : TEST_PATTERNS.any (fun t => containsSub t (strLower p)) = true) :
    should_skip_file_for_refactoring p false = true := by
  unfold should_skip_file_for_refactoring
  by_cases hs :
    SKIP_REFACTOR_PATTERNS.any (fun q => containsSub q (strLower p)) = true
  · simp [hs]
  · simp [hs, h]

/-- C8: even with `include_tests = true`, a directory whose path contains a
test pattern is pruned during traversal — its entire subtree contributes
no candidate files and no warnings — because the recursion invokes the
skip predicate with `include_tests` at its default false; the option only
spares test-named files outside test-named directories, as the second
conjunct shows for a top-level `test_app.py`. -/
theorem traversal_prunes_test_dirs (pre post cs : List RTree) (n p : Str)
    (h : TEST_PATTERNS.any (fun t => containsSub t (strLower p)) = true) :
    fetchForest (pre ++ RTree.rdirOk n p cs :: post) =
      ((fetchForest pre).1 ++ (fetchForest post).1,
       (fetchForest pre).2 ++ (fetchForest post).2) ∧
    should_skip_file_for_refactoring ("test_app.py".toList) true = false := by
  have hskip := test_pattern_skips_by_default p h
  constructor
  · rw [fetchForest_append]
    simp [fetchForest, hskip]
  · decide

/-- Witness for C8 on a concrete forest with a `tests` directory. -/
theorem traversal_prunes_test_dirs_witness :
    TEST_PATTERNS.any (fun t => containsSub t (strLower ("tests".toList))) =
      true ∧
    (fetchForest
        (c8Pre ++ RTree.rdirOk ("tests".toList) ("tests".toList) c8Children ::
          c8Post) =
      ((fetchForest c8Pre).1 ++ (fetchForest c8Post).1,
       (fetchForest c8Pre).2 ++ (fetchForest c8Post).2) ∧
     should_skip_file_for_refactoring ("test_app.py".toList) true = false) :=
  ⟨by decide,
   traversal_prunes_test_dirs c8Pre c8Post c8Children ("tests".toList)
     ("tests".toList) (by decide)⟩

/-- C10: when the contents listing for one directory fails, that subtree
contributes zero entries, a warning carrying the directory's path is
recorded, and the traversal of the surrounding siblings is unaffected;
a failing root listing likewise yields an empty enumeration plus a warning
rather than an error. -/
theorem failed_listing_subtree_empty (pre post : List RTree) (n p : Str)
    (h : should_skip_file_for_refactoring p false = false) :
    fetchForest (pre ++ RTree.rdirFailed n p :: post) =
      ((fetchForest pre).1 ++ (fetchForest post).1,
       (fetchForest pre).2 ++ p :: (fetchForest post).2) ∧
    fetchContentsRecursive none = ([], [[]]) := by
  constructor
  · rw [fetchForest_append]
    simp [fetchForest, h]
  · rfl

/-- Witness for C10 on a concrete forest with a failing `src` listing. -/
theorem failed_listing_subtree_empty_witness :
    should_skip_file_for_refactoring ("src".toList) false = false ∧
    (fetchForest
        (c8Pre ++ RTree.rdirFailed ("src".toList) ("src".toList) :: c8Post) =
      ((fetchForest c8Pre).1 ++ (fetchForest c8Post).1,
       (fetchForest c8Pre).2 ++ ("src".toList) :: (fetchForest c8Post).2) ∧
     fetchContentsRecursive none = ([], [[]])) :=
  ⟨by decide,
   failed_listing_subtree_empty c8Pre c8Post ("src".toList) ("src".toList)
     (by decide)⟩

/-- Counterexample to C1 as stated: one selected file whose content
retrieval returns status 404.  The claim predicts the skipped-file
counter rises by one; the fetch loop's `if status == 200` simply falls
through, so the counter stays at its initial value. -/
theorem fetch_non_success_not_counted_cex :
    ¬ ((fetchFiles (fun _ => ContentResult.resp 404 [])
        [⟨"a.py".toList, "a.py".toList, 10, ".py".toList, "url-a".toList,
          false, 0⟩]
        ⟨[], initStatistics⟩).stats.skipped_files =
      initStatistics.skipped_files + 1) := by
  decide

/-- C1 amended: a raised transport fault increments the skipped-file counter
and leaves the scored mapping untouched; a response with a non-success
status leaves the entire state — mapping and counters — unchanged; in both
cases the file is omitted, and a successfully parsed URL always yields a
completed payload, so per-file failure never escalates to pipeline
failure. -/
theorem fetch_failure_behaviour (net : Str → ContentResult) (st : FetchState)
    (fd : FileData) (env : Env) (github_url : Str) (options : ScopeOptions)
    (o r : Str) (hparse : parse_github_url github_url = some (o, r)) :
    (net fd.download_url = ContentResult.exn →
      fetchOne net st fd =
        ⟨st.analyzed,
         { st.stats with skipped_files := st.stats.skipped_files + 1 }⟩) ∧
    (∀ status body, net fd.download_url = ContentResult.resp status body →
      status ≠ 200 → fetchOne net st fd = st) ∧
    (∃ payload, fetch_repository_for_refactoring env github_url options =
      Except.ok payload) := by
  refine ⟨fun h => ?_, fun status body h hs => ?_, ?_⟩
  · unfold fetchOne
    rw [h]
  · unfold fetchOne
    rw [h]
    simp [hs]
  · unfold fetch_repository_for_refactoring
    rw [hparse]
    exact ⟨_, rfl⟩

/-- Witness for the amended C1: a faulting fetch, a 404 fetch, and a
completed pipeline on an empty repository. -/
theorem fetch_failure_behaviour_witness :
    (fetchOne (fun _ => ContentResult.exn) ⟨[], initStatistics⟩
        ⟨"a.py".toList, "a.py".toList, 10, ".py".toList, "url-a".toList,
          false, 0⟩ =
      ⟨[], { initStatistics with
              skipped_files := initStatistics.skipped_files + 1 }⟩) ∧
    (fetchOne (fun _ => ContentResult.resp 404 []) ⟨[], initStatistics⟩
        ⟨"a.py".toList, "a.py".toList, 10, ".py".toList, "url-a".toList,
          false, 0⟩ =
      ⟨[], initStatistics⟩) ∧
    (∃ payload, fetch_repository_for_refactoring
        ⟨fun _ _ => MetaResult.exn, some [], fun _ => ContentResult.exn⟩
        ("https://github.com/octo/demo".toList) ⟨60, false, true, true⟩ =
      Except.ok payload) :=
  ⟨(fetch_failure_behaviour (fun _ => ContentResult.exn) ⟨[], initStatistics⟩
      ⟨"a.py".toList, "a.py".toList, 10, ".py".toList, "url-a".toList,
        false, 0⟩
      ⟨fun _ _ => MetaResult.exn, some [], fun _ => ContentResult.exn⟩
      ("https://github.com/octo/demo".toList) ⟨60, false, true, true⟩
      ("octo".toList) ("demo".toList) (by decide)).1 rfl,
   (fetch_failure_behaviour (fun _ => ContentResult.resp 404 [])
      ⟨[], initStatistics⟩
      ⟨"a.py".toList, "a.py".toList, 10, ".py".toList, "url-a".toList,
        false, 0⟩
      ⟨fun _ _ => MetaResult.exn, some [], fun _ => ContentResult.exn⟩
      ("https://github.com/octo/demo".toList) ⟨60, false, true, true⟩
      ("octo".toList) ("demo".toList) (by decide)).2.1 404 [] rfl (by decide),
   (fetch_failure_behaviour (fun _ => ContentResult.exn) ⟨[], initStatistics⟩
      ⟨"a.py".toList, "a.py".toList, 10, ".py".toList, "url-a".toList,
        false, 0⟩
      ⟨fun _ _ => MetaResult.exn, some [], fun _ => ContentResult.exn⟩
      ("https://github.com/octo/demo".toList) ⟨60, false, true, true⟩
      ("octo".toList) ("demo".toList) (by decide)).2.2⟩

/-- C5: a run of the analyze handler halts with an error exactly when the
reference is bad — the URL fails the pattern or the metadata lookup does
not return status 200 — and completes with a payload in every other case,
whatever the rest of the remote world does. -/
theorem run_halts_iff_reference_error (env : Env) (github_url : Str)
    (options : ScopeOptions) :
    ((∃ msg, run_analysis env github_url options = RunResult.halted msg) ↔
      reference_error env github_url) ∧
    ((∃ payload, run_analysis env github_url options =
        RunResult.completed payload) ↔
      ¬ reference_error env github_url) := by
  unfold run_analysis reference_error validate_repository
    fetch_repository_for_refactoring
  cases hp : parse_github_url github_url with
  | none => simp
  | some pr =>
    rcases pr with ⟨o, r⟩
    cases hm : env.meta o r with
    | exn => simp [hm]
    | resp status j =>
      by_cases hs : status = 200
      · subst hs
        simp [hm]
      · simp [hm, hs]
